import Mathlib

/-!
Shallow embedding of the map core of the `ts-lib` repository.

The repository has two hash-map flavours and a default-value wrapper:

* `Hashed.HashMap` embeds the class `HashMap<TKey, TValue, THashedKey>`
  (source file with the `onHash` option): keys are hashed by a caller
  supplied function before being stored, iteration yields hashed keys.
* `Serde.HashMap` embeds the class `HashMap<TKey, TValue>` implementing
  `BaseMap` (source file with `serializeKey`/`deserializeKey`): keys are
  serialized to strings for storage and deserialized again on iteration.
* `DefaultMap` embeds `src/Data/Map/DefaultMap.ts`, which owns a
  `Serde.HashMap` and materializes a default value on a missing `get`.

The backing store of every flavour is a JavaScript `Map`, embedded as an
insertion-ordered association list: `set` on a present key updates the
value in place, on an absent key it appends; `delete` removes the entry
and keeps the order of the others; the `Map` constructor replays `set`
over the entry list (last write wins, first position kept).

JavaScript truthiness (`if (!value) ...` in `get`/`getOr`) has no
counterpart on an arbitrary Lean type, so the operations that test it
take the truthiness test as an explicit parameter `falsy : V → Bool`;
`jsGet` returning `none` corresponds to `Map.get` returning `undefined`,
which is also falsy.

Mutating methods are embedded as functions returning the updated map;
fallible methods return `Except` of the error carrying, as in the
source, the offending key and the map that threw.
-/

/-- `Map.prototype.get` on the backing store: first entry with the key. -/
def jsGet {A B : Type} [DecidableEq A] : List (A × B) → A → Option B
  | [], _ => none
  | p :: t, k => if p.1 = k then some p.2 else jsGet t k

/-- `Map.prototype.has` on the backing store. -/
def jsHas {A B : Type} [DecidableEq A] : List (A × B) → A → Bool
  | [], _ => false
  | p :: t, k => if p.1 = k then true else jsHas t k

/-- `Map.prototype.set`: update in place if the key is present, else append. -/
def jsSet {A B : Type} [DecidableEq A] : List (A × B) → A → B → List (A × B)
  | [], k, v => [(k, v)]
  | p :: t, k, v => if p.1 = k then (k, v) :: t else p :: jsSet t k v

/-- `Map.prototype.delete`: drop the entry with the key, keep the rest. -/
def jsDelete {A B : Type} [DecidableEq A] : List (A × B) → A → List (A × B)
  | [], _ => []
  | p :: t, k => if p.1 = k then jsDelete t k else p :: jsDelete t k

/-- `new Map(entries)`: replay `set` over the entry list. -/
def jsFromList {A B : Type} [DecidableEq A] (l : List (A × B)) : List (A × B) :=
  l.foldl (fun acc p => jsSet acc p.1 p.2) []

namespace Hashed

/-- The hash-flavoured `HashMap<TKey, TValue, THashedKey>`: a caller
supplied `hash` function, the backing `Map` (field `_map` in the source)
and a diagnostic `name` defaulting to `"unknown"`. -/
structure HashMap (K V H : Type) where
  hash : K → H
  internalMap : List (H × V)
  name : String := "unknown"

/-- `HashMapMissingKeyError`: carries the throwing map and the offending
domain key (the message string is presentation only). -/
structure MissingKeyError (K V H : Type) where
  map : HashMap K V H
  key : K

namespace HashMap

variable {K V H : Type} [DecidableEq H]

/-- `HashMap.empty()`: identity hash, empty storage. -/
def empty (K V : Type) (name : String := "unknown") : HashMap K V K :=
  ⟨id, [], name⟩

/-- `HashMap.emptyWithCustomHash(options)`. -/
def emptyWithCustomHash (onHash : K → H) (name : String := "unknown") :
    HashMap K V H :=
  ⟨onHash, [], name⟩

/-- `HashMap.fromCustomEntries(entries, options)`: hash each key, then
build the backing `Map` from the hashed pairs. -/
def fromCustomEntries (entries : List (K × V)) (onHash : K → H)
    (name : String := "unknown") : HashMap K V H :=
  ⟨onHash, jsFromList (entries.map fun p => (onHash p.1, p.2)), name⟩

/-- `clear()`. -/
def clear (m : HashMap K V H) : HashMap K V H :=
  { m with internalMap := [] }

/-- `hashKey(key)`. -/
def hashKey (m : HashMap K V H) (k : K) : H :=
  m.hash k

/-- `has(key)`. -/
def has (m : HashMap K V H) (k : K) : Bool :=
  jsHas m.internalMap (m.hashKey k)

/-- `set(key, value)`. -/
def set (m : HashMap K V H) (k : K) (v : V) : HashMap K V H :=
  { m with internalMap := jsSet m.internalMap (m.hashKey k) v }

/-- `get(key)`: looks the hashed key up and throws `MissingKeyError` when
the result is absent or falsy (the source tests `if (!value)`). -/
def get (falsy : V → Bool) (m : HashMap K V H) (k : K) :
    Except (MissingKeyError K V H) V :=
  match jsGet m.internalMap (m.hashKey k) with
  | none => .error ⟨m, k⟩
  | some v => if falsy v then .error ⟨m, k⟩ else .ok v

/-- `getOr(key, defaultValue)`: the fallback may have another type, so the
result is the sum of the two (`TDefaultValue | TValue` in the source);
the source tests `if (!value)` exactly as `get` does. -/
def getOr {D : Type} (falsy : V → Bool) (m : HashMap K V H) (k : K) (d : D) :
    V ⊕ D :=
  match jsGet m.internalMap (m.hashKey k) with
  | none => .inr d
  | some v => if falsy v then .inr d else .inl v

/-- `delete(key)`: throws `MissingKeyError` when `has` is false, else
removes the entry. -/
def delete (m : HashMap K V H) (k : K) :
    Except (MissingKeyError K V H) (HashMap K V H) :=
  if m.has k then
    .ok { m with internalMap := jsDelete m.internalMap (m.hashKey k) }
  else
    .error ⟨m, k⟩

/-- `deleteIfExists(key)`: `false` and no change when `has` is false, else
delegates to `delete` (which cannot throw then) and returns `true`. -/
def deleteIfExists (m : HashMap K V H) (k : K) : Bool × HashMap K V H :=
  if m.has k then
    match m.delete k with
    | .ok m' => (true, m')
    | .error _ => (true, m)
  else
    (false, m)

/-- `entries()`: yields the pairs of the backing `Map`, so keys appear in
their hashed form, in insertion order. -/
def entries (m : HashMap K V H) : List (H × V) :=
  m.internalMap

/-- `keys()`: yields the hashed keys of the backing `Map`. -/
def keys (m : HashMap K V H) : List H :=
  m.internalMap.map Prod.fst

/-- `values()`. -/
def values (m : HashMap K V H) : List V :=
  m.internalMap.map Prod.snd

/-- `[Symbol.iterator]()`: returns `entries()`. -/
def iter (m : HashMap K V H) : List (H × V) :=
  m.entries

/-- `filter(fn)`: walks `entries()`, pushing accepted pairs onto a local
array whose current length is the index passed to the callback, then
builds a new `HashMap` with the same hash and name. -/
def filter (m : HashMap K V H)
    (fn : V → H → Nat → HashMap K V H → Bool) : HashMap K V H :=
  let es := m.entries.foldl
    (fun acc p => if fn p.2 p.1 acc.length m then acc ++ [p] else acc) []
  ⟨m.hash, jsFromList es, m.name⟩

/-- `map(fn)`: collects `fn value key index original` for every entry (the
index is the length of the collected array) and builds a new `HashMap`
with the same hash and name. -/
def map (m : HashMap K V H)
    (fn : V → H → Nat → HashMap K V H → H × V) : HashMap K V H :=
  let es := m.entries.foldl
    (fun acc p => acc ++ [fn p.2 p.1 acc.length m]) []
  ⟨m.hash, jsFromList es, m.name⟩

/-- `mapKeys(fn)`: specialization of `map` keeping the values. -/
def mapKeys (m : HashMap K V H)
    (fn : H → V → Nat → HashMap K V H → H) : HashMap K V H :=
  m.map fun value key index original => (fn key value index original, value)

/-- `mapValues(fn)`: specialization of `map` keeping the keys. -/
def mapValues (m : HashMap K V H)
    (fn : V → H → Nat → HashMap K V H → V) : HashMap K V H :=
  m.map fun value key index original => (key, fn value key index original)

end HashMap

end Hashed

namespace Serde

/-- The serialize-flavoured `HashMap<TKey, TValue>` implementing `BaseMap`:
keys are serialized to strings for storage (`internalMap`) and
deserialized again when iterated. This class has no `name` field. -/
structure HashMap (K V : Type) where
  internalMap : List (String × V)
  deserializeKey : String → K
  serializeKey : K → String

/-- `MissingKeyError` of the `BaseMap` family: carries the throwing map and
the offending domain key (the message string is presentation only). -/
structure MissingKeyError (K V : Type) where
  map : HashMap K V
  key : K

namespace HashMap

variable {K V : Type}

/-- `typename`. -/
def typename : String := "HashMap"

/-- `HashMap.empty(options)`. -/
def empty (deserializeKey : String → K) (serializeKey : K → String) :
    HashMap K V :=
  ⟨[], deserializeKey, serializeKey⟩

/-- `HashMap.fromEntries(entries, options)`: serialize each key, then build
the backing `Map` from the serialized pairs. -/
def fromEntries (entries : List (K × V)) (deserializeKey : String → K)
    (serializeKey : K → String) : HashMap K V :=
  ⟨jsFromList (entries.map fun p => (serializeKey p.1, p.2)),
    deserializeKey, serializeKey⟩

/-- `clear()`. -/
def clear (m : HashMap K V) : HashMap K V :=
  { m with internalMap := [] }

/-- `has(key)`. -/
def has (m : HashMap K V) (k : K) : Bool :=
  jsHas m.internalMap (m.serializeKey k)

/-- `set(key, value)`. -/
def set (m : HashMap K V) (k : K) (v : V) : HashMap K V :=
  { m with internalMap := jsSet m.internalMap (m.serializeKey k) v }

/-- `get(key)`: looks the serialized key up and throws `MissingKeyError`
when the result is absent or falsy (the source tests `if (!value)`). -/
def get (falsy : V → Bool) (m : HashMap K V) (k : K) :
    Except (MissingKeyError K V) V :=
  match jsGet m.internalMap (m.serializeKey k) with
  | none => .error ⟨m, k⟩
  | some v => if falsy v then .error ⟨m, k⟩ else .ok v

/-- `getOr(key, defaultValue)`: result is `TDefaultValue | TValue`; the
source tests `if (!value)` exactly as `get` does. -/
def getOr {D : Type} (falsy : V → Bool) (m : HashMap K V) (k : K) (d : D) :
    V ⊕ D :=
  match jsGet m.internalMap (m.serializeKey k) with
  | none => .inr d
  | some v => if falsy v then .inr d else .inl v

/-- `delete(key)`: throws `MissingKeyError` when `has` is false, else
removes the entry. -/
def delete (m : HashMap K V) (k : K) :
    Except (MissingKeyError K V) (HashMap K V) :=
  if m.has k then
    .ok { m with internalMap := jsDelete m.internalMap (m.serializeKey k) }
  else
    .error ⟨m, k⟩

/-- `deleteIfExists(key)`: `false` and no change when `has` is false, else
delegates to `delete` (which cannot throw then) and returns `true`. -/
def deleteIfExists (m : HashMap K V) (k : K) : Bool × HashMap K V :=
  if m.has k then
    match m.delete k with
    | .ok m' => (true, m')
    | .error _ => (true, m)
  else
    (false, m)

/-- `entries()`: yields the pairs of the backing `Map` with the stored key
passed through `deserializeKey`, so keys appear in domain form. -/
def entries (m : HashMap K V) : List (K × V) :=
  m.internalMap.map fun p => (m.deserializeKey p.1, p.2)

/-- `keys()`: yields the deserialized keys. -/
def keys (m : HashMap K V) : List K :=
  m.internalMap.map fun p => m.deserializeKey p.1

/-- `serializedKeys()`: yields the stored (serialized) keys. -/
def serializedKeys (m : HashMap K V) : List String :=
  m.internalMap.map Prod.fst

/-- `values()`. -/
def values (m : HashMap K V) : List V :=
  m.internalMap.map Prod.snd

/-- `[Symbol.iterator]()`: returns `entries()`. -/
def iter (m : HashMap K V) : List (K × V) :=
  m.entries

/-- `filter(fn)`: walks `entries()` (deserialized pairs), pushing accepted
pairs onto a local array whose current length is the index passed to the
callback, then rebuilds via `fromEntries` with the same serializers. -/
def filter (m : HashMap K V)
    (fn : V → K → Nat → HashMap K V → Bool) : HashMap K V :=
  let es := m.entries.foldl
    (fun acc p => if fn p.2 p.1 acc.length m then acc ++ [p] else acc) []
  fromEntries es m.deserializeKey m.serializeKey

/-- `map(fn)`: collects `fn value key index original` for every entry (the
index is the length of the collected array) and rebuilds via `fromEntries`
with the same serializers. -/
def map (m : HashMap K V)
    (fn : V → K → Nat → HashMap K V → K × V) : HashMap K V :=
  let es := m.entries.foldl
    (fun acc p => acc ++ [fn p.2 p.1 acc.length m]) []
  fromEntries es m.deserializeKey m.serializeKey

/-- `mapKeys(fn)`: specialization of `map` keeping the values. -/
def mapKeys (m : HashMap K V)
    (fn : K → V → Nat → HashMap K V → K) : HashMap K V :=
  m.map fun value key index original => (fn key value index original, value)

/-- `mapValues(fn)`: specialization of `map` keeping the keys. -/
def mapValues (m : HashMap K V)
    (fn : V → K → Nat → HashMap K V → V) : HashMap K V :=
  m.map fun value key index original => (key, fn value key index original)

end HashMap

end Serde

/-- `DefaultMap<TKey, TValue>` of `src/Data/Map/DefaultMap.ts`: owns a
`Serde.HashMap` and a default-value callback, plus an optional `name`.
The source callback also receives the `DefaultMap` itself as a second
argument (`(key, self) => TValue`); none of the verified claims exercise
that self reference, so it is embedded as a function of the key alone. -/
structure DefaultMap (K V : Type) where
  internalMap : Serde.HashMap K V
  defaultValue : K → V
  name : Option String := none

namespace DefaultMap

variable {K V : Type}

/-- `typename`. -/
def typename : String := "DefaultMap"

/-- `DefaultMap.fromEntries(entries, defaultValue, options)`: builds the
owned `Serde.HashMap` from the serialized entries. The `name` constructor
argument is not passed, so the result has no name. -/
def fromEntries (entries : List (K × V)) (defaultValue : K → V)
    (deserializeKey : String → K) (serializeKey : K → String) :
    DefaultMap K V :=
  ⟨⟨jsFromList (entries.map fun p => (serializeKey p.1, p.2)),
      deserializeKey, serializeKey⟩,
    defaultValue, none⟩

/-- `DefaultMap.empty(defaultValue, options)` = `fromEntries([], ...)`. -/
def empty (defaultValue : K → V) (deserializeKey : String → K)
    (serializeKey : K → String) : DefaultMap K V :=
  fromEntries [] defaultValue deserializeKey serializeKey

/-- `clear()`. -/
def clear (m : DefaultMap K V) : DefaultMap K V :=
  { m with internalMap := m.internalMap.clear }

/-- `has(key)`: delegates to the owned map. -/
def has (m : DefaultMap K V) (k : K) : Bool :=
  m.internalMap.has k

/-- `set(key, value)`: delegates to the owned map. -/
def set (m : DefaultMap K V) (k : K) (v : V) : DefaultMap K V :=
  { m with internalMap := m.internalMap.set k v }

/-- `get(key)`: when `has` is false, computes the default, stores it via
`set` and returns it; otherwise delegates to the owned map's strict `get`.
The embedding returns the result, the updated map (the source mutates in
place) and the number of times the default-value callback was invoked. -/
def get (falsy : V → Bool) (m : DefaultMap K V) (k : K) :
    Except (Serde.MissingKeyError K V) V × DefaultMap K V × Nat :=
  if m.has k then
    (m.internalMap.get falsy k, m, 0)
  else
    let d := m.defaultValue k
    (.ok d, m.set k d, 1)

/-- `getOr(key, defaultValue)`: delegates verbatim to the owned map; the
embedding also reports the (unchanged) map and the number of invocations
of the default-value callback, which is zero. -/
def getOr {D : Type} (falsy : V → Bool) (m : DefaultMap K V) (k : K)
    (d : D) : (V ⊕ D) × DefaultMap K V × Nat :=
  (m.internalMap.getOr falsy k d, m, 0)

/-- `delete(key)`: delegates to the owned map (the error, when thrown,
carries the owned `Serde.HashMap`). -/
def delete (m : DefaultMap K V) (k : K) :
    Except (Serde.MissingKeyError K V) (DefaultMap K V) :=
  match m.internalMap.delete k with
  | .ok m' => .ok { m with internalMap := m' }
  | .error e => .error e

/-- `deleteIfExists(key)`: delegates to the owned map. -/
def deleteIfExists (m : DefaultMap K V) (k : K) : Bool × DefaultMap K V :=
  match m.internalMap.deleteIfExists k with
  | (b, m') => (b, { m with internalMap := m' })

/-- `entries()`: delegates to the owned map (deserialized pairs). -/
def entries (m : DefaultMap K V) : List (K × V) :=
  m.internalMap.entries

/-- `keys()`. -/
def keys (m : DefaultMap K V) : List K :=
  m.internalMap.keys

/-- `serializedKeys()`. -/
def serializedKeys (m : DefaultMap K V) : List String :=
  m.internalMap.serializedKeys

/-- `values()`. -/
def values (m : DefaultMap K V) : List V :=
  m.internalMap.values

/-- `[Symbol.iterator]()`: returns `entries()`. -/
def iter (m : DefaultMap K V) : List (K × V) :=
  m.entries

/-- `filter(fn)`: walks the owned map's `entries()` with a separate `index`
counter that is incremented on every iteration (accepted or not), then
rebuilds via `DefaultMap.fromEntries` with the same default callback and
serializers — dropping the `name`. -/
def filter (m : DefaultMap K V)
    (fn : V → K → Nat → DefaultMap K V → Bool) : DefaultMap K V :=
  let es := (m.internalMap.entries.foldl
    (fun (acc : List (K × V) × Nat) p =>
      (if fn p.2 p.1 acc.2 m then acc.1 ++ [p] else acc.1, acc.2 + 1))
    ([], 0)).1
  fromEntries es m.defaultValue m.internalMap.deserializeKey
    m.internalMap.serializeKey

/-- `map(fn)`: same per-iteration `index` counter as `filter`; rebuilds via
`DefaultMap.fromEntries`, dropping the `name`. -/
def map (m : DefaultMap K V)
    (fn : V → K → Nat → DefaultMap K V → K × V) : DefaultMap K V :=
  let es := (m.internalMap.entries.foldl
    (fun (acc : List (K × V) × Nat) p =>
      (acc.1 ++ [fn p.2 p.1 acc.2 m], acc.2 + 1))
    ([], 0)).1
  fromEntries es m.defaultValue m.internalMap.deserializeKey
    m.internalMap.serializeKey

/-- `mapKeys(fn)`: its own loop in the source, with the same per-iteration
counter; rebuilds via `DefaultMap.fromEntries`, dropping the `name`. -/
def mapKeys (m : DefaultMap K V)
    (fn : K → V → Nat → DefaultMap K V → K) : DefaultMap K V :=
  let es := (m.internalMap.entries.foldl
    (fun (acc : List (K × V) × Nat) p =>
      (acc.1 ++ [(fn p.1 p.2 acc.2 m, p.2)], acc.2 + 1))
    ([], 0)).1
  fromEntries es m.defaultValue m.internalMap.deserializeKey
    m.internalMap.serializeKey

/-- `mapValues(fn)`: its own loop in the source, with the same
per-iteration counter; rebuilds via `DefaultMap.fromEntries`, dropping the
`name`. -/
def mapValues (m : DefaultMap K V)
    (fn : V → K → Nat → DefaultMap K V → V) : DefaultMap K V :=
  let es := (m.internalMap.entries.foldl
    (fun (acc : List (K × V) × Nat) p =>
      (acc.1 ++ [(p.1, fn p.2 p.1 acc.2 m)], acc.2 + 1))
    ([], 0)).1
  fromEntries es m.defaultValue m.internalMap.deserializeKey
    m.internalMap.serializeKey

end DefaultMap

/-- JavaScript truthiness on numbers, for concrete instances: `0` is the
falsy integer. -/
def intFalsy (v : Int) : Bool :=
  v = 0

/-- JavaScript truthiness on strings, for concrete instances: `""` is the
falsy string. -/
def strFalsy (v : String) : Bool :=
  v = ""

/-- Modelled from the spec: `filter` semantics in which the index passed to
the predicate counts the entries accepted so far, starting at `n`, and the
result keeps exactly the accepted entries in iteration order. Used to
compare the source's `filter` loops against the spec's wording. -/
def filterAccepted {A B : Type} (fn : B → A → Nat → Bool) :
    List (A × B) → Nat → List (A × B)
  | [], _ => []
  | p :: t, n =>
    if fn p.2 p.1 n then p :: filterAccepted fn t (n + 1)
    else filterAccepted fn t n

/-- Modelled from the spec (amended semantics): `filter` in which the index
passed to the predicate is the overall iteration position, incremented on
every entry whether accepted or not. This is what `DefaultMap.filter`
computes. -/
def filterEnumerated {A B : Type} (fn : B → A → Nat → Bool) :
    List (A × B) → Nat → List (A × B)
  | [], _ => []
  | p :: t, n =>
    if fn p.2 p.1 n then p :: filterEnumerated fn t (n + 1)
    else filterEnumerated fn t (n + 1)

section Lemmas

variable {A B : Type} [DecidableEq A]

theorem jsHas_eq_isSome (l : List (A × B)) (k : A) :
    jsHas l k = (jsGet l k).isSome := by
  induction l with
  | nil => rfl
  | cons p t ih =>
    by_cases h : p.1 = k <;> simp [jsHas, jsGet, h, ih]

theorem jsGet_jsSet_self (l : List (A × B)) (k : A) (v : B) :
    jsGet (jsSet l k v) k = some v := by
  induction l with
  | nil => simp [jsSet, jsGet]
  | cons p t ih =>
    by_cases h : p.1 = k <;> simp [jsSet, jsGet, h, ih]

theorem jsHas_jsSet_self (l : List (A × B)) (k : A) (v : B) :
    jsHas (jsSet l k v) k = true := by
  rw [jsHas_eq_isSome, jsGet_jsSet_self]
  rfl

theorem jsHas_jsDelete_self (l : List (A × B)) (k : A) :
    jsHas (jsDelete l k) k = false := by
  induction l with
  | nil => rfl
  | cons p t ih =>
    by_cases h : p.1 = k <;> simp [jsDelete, jsHas, h, ih]

theorem jsSet_absent (l : List (A × B)) (k : A) (v : B)
    (h : jsHas l k = false) : jsSet l k v = l ++ [(k, v)] := by
  induction l with
  | nil => rfl
  | cons p t ih =>
    by_cases hp : p.1 = k
    · simp [jsHas, hp] at h
    · simp [jsHas, hp] at h
      simp [jsSet, hp, ih h]

theorem jsHas_append (l₁ l₂ : List (A × B)) (k : A) :
    jsHas (l₁ ++ l₂) k = (jsHas l₁ k || jsHas l₂ k) := by
  induction l₁ with
  | nil => simp [jsHas]
  | cons p t ih =>
    by_cases h : p.1 = k <;> simp [jsHas, h, ih]

theorem jsHas_false_of_not_mem (l : List (A × B)) (k : A)
    (h : k ∉ l.map Prod.fst) : jsHas l k = false := by
  induction l with
  | nil => rfl
  | cons p t ih =>
    simp only [List.map_cons, List.mem_cons] at h
    push_neg at h
    have hp : p.1 ≠ k := fun hk => h.1 hk.symm
    simp [jsHas, hp, ih h.2]

theorem jsFromList_aux :
    ∀ (l acc : List (A × B)), (l.map Prod.fst).Nodup →
      (∀ p ∈ l, jsHas acc p.1 = false) →
      l.foldl (fun acc p => jsSet acc p.1 p.2) acc = acc ++ l := by
  intro l
  induction l with
  | nil => intro acc _ _; simp
  | cons p t ih =>
    intro acc hnd habs
    have hp : jsHas acc p.1 = false := habs p (by simp)
    simp only [List.map_cons, List.nodup_cons] at hnd
    have step : jsSet acc p.1 p.2 = acc ++ [p] := by
      rw [jsSet_absent acc p.1 p.2 hp]
    have habs' : ∀ q ∈ t, jsHas (acc ++ [p]) q.1 = false := by
      intro q hq
      rw [jsHas_append]
      have h1 : jsHas acc q.1 = false := habs q (by simp [hq])
      have h2 : jsHas [p] q.1 = false := by
        have : p.1 ≠ q.1 := by
          intro hk
          exact hnd.1 (hk ▸ List.mem_map_of_mem Prod.fst hq)
        simp [jsHas, this]
      simp [h1, h2]
    calc (p :: t).foldl (fun acc p => jsSet acc p.1 p.2) acc
        = t.foldl (fun acc p => jsSet acc p.1 p.2) (acc ++ [p]) := by
          simp [List.foldl_cons, step]
      _ = (acc ++ [p]) ++ t := ih (acc ++ [p]) hnd.2 habs'
      _ = acc ++ p :: t := by simp

theorem jsFromList_eq_self (l : List (A × B)) (h : (l.map Prod.fst).Nodup) :
    jsFromList l = l := by
  have := jsFromList_aux l [] h (fun p _ => rfl)
  simpa [jsFromList] using this

end Lemmas

theorem filterAccepted_sublist {A B : Type} (fn : B → A → Nat → Bool) :
    ∀ (l : List (A × B)) (n : Nat), List.Sublist (filterAccepted fn l n) l := by
  intro l
  induction l with
  | nil => intro n; simp [filterAccepted]
  | cons p t ih =>
    intro n
    by_cases h : fn p.2 p.1 n = true
    · simpa [filterAccepted, h] using (ih (n + 1)).cons₂ p
    · simp only [Bool.not_eq_true] at h
      simpa [filterAccepted, h] using (ih n).cons p

theorem filter_foldl_eq {A B : Type} (fn : B → A → Nat → Bool) :
    ∀ (l acc : List (A × B)),
      l.foldl (fun acc p =>
        if fn p.2 p.1 acc.length then acc ++ [p] else acc) acc
        = acc ++ filterAccepted fn l acc.length := by
  intro l
  induction l with
  | nil => intro acc; simp [filterAccepted]
  | cons p t ih =>
    intro acc
    by_cases h : fn p.2 p.1 acc.length = true
    · have len : (acc ++ [p]).length = acc.length + 1 := by simp
      calc (p :: t).foldl (fun acc p =>
              if fn p.2 p.1 acc.length then acc ++ [p] else acc) acc
          = t.foldl (fun acc p =>
              if fn p.2 p.1 acc.length then acc ++ [p] else acc)
              (acc ++ [p]) := by simp [List.foldl_cons, h]
        _ = (acc ++ [p]) ++ filterAccepted fn t (acc ++ [p]).length :=
              ih (acc ++ [p])
        _ = acc ++ filterAccepted fn (p :: t) acc.length := by
              simp [len, filterAccepted, h]
    · simp only [Bool.not_eq_true] at h
      calc (p :: t).foldl (fun acc p =>
              if fn p.2 p.1 acc.length then acc ++ [p] else acc) acc
          = t.foldl (fun acc p =>
              if fn p.2 p.1 acc.length then acc ++ [p] else acc) acc := by
              simp [List.foldl_cons, h]
        _ = acc ++ filterAccepted fn t acc.length := ih acc
        _ = acc ++ filterAccepted fn (p :: t) acc.length := by
              simp [filterAccepted, h]

theorem dfilter_foldl_eq {A B : Type} (fn : B → A → Nat → Bool) :
    ∀ (l acc : List (A × B)) (n : Nat),
      (l.foldl (fun (acc : List (A × B) × Nat) p =>
        (if fn p.2 p.1 acc.2 then acc.1 ++ [p] else acc.1, acc.2 + 1))
        (acc, n)).1
        = acc ++ filterEnumerated fn l n := by
  intro l
  induction l with
  | nil => intro acc n; simp [filterEnumerated]
  | cons p t ih =>
    intro acc n
    by_cases h : fn p.2 p.1 n = true
    · calc ((p :: t).foldl (fun (acc : List (A × B) × Nat) p =>
              (if fn p.2 p.1 acc.2 then acc.1 ++ [p] else acc.1, acc.2 + 1))
              (acc, n)).1
          = (t.foldl (fun (acc : List (A × B) × Nat) p =>
              (if fn p.2 p.1 acc.2 then acc.1 ++ [p] else acc.1, acc.2 + 1))
              (acc ++ [p], n + 1)).1 := by simp [List.foldl_cons, h]
        _ = (acc ++ [p]) ++ filterEnumerated fn t (n + 1) := ih (acc ++ [p]) (n + 1)
        _ = acc ++ filterEnumerated fn (p :: t) n := by
              simp [filterEnumerated, h]
    · simp only [Bool.not_eq_true] at h
      calc ((p :: t).foldl (fun (acc : List (A × B) × Nat) p =>
              (if fn p.2 p.1 acc.2 then acc.1 ++ [p] else acc.1, acc.2 + 1))
              (acc, n)).1
          = (t.foldl (fun (acc : List (A × B) × Nat) p =>
              (if fn p.2 p.1 acc.2 then acc.1 ++ [p] else acc.1, acc.2 + 1))
              (acc, n + 1)).1 := by simp [List.foldl_cons, h]
        _ = acc ++ filterEnumerated fn t (n + 1) := ih acc (n + 1)
        _ = acc ++ filterEnumerated fn (p :: t) n := by
              simp [filterEnumerated, h]

/-- C1: the claim says that for every map flavour, every key `k` and every
value `v`, after `set(k, v)` the call `get(k)` returns `v` and `has(k)` is
true. The code contradicts it (and the `BaseMap.get` documentation, which
promises a throw only when the key does not exist): `get` tests the looked
up value with `if (!value)`, so a stored falsy value such as `0` makes
`get` throw `MissingKeyError` although `has` is true. This theorem
evaluates the code at the failing input `set(1, 0); get(1)` (and its
analogues for the serialize flavour and `DefaultMap`). -/
theorem C1_code_bug_set_get_falsy_value :
    (Hashed.HashMap.has
        ((Hashed.HashMap.empty Int Int).set 1 0) 1 = true ∧
      Hashed.HashMap.get intFalsy
        ((Hashed.HashMap.empty Int Int).set 1 0) 1
        = .error ⟨(Hashed.HashMap.empty Int Int).set 1 0, 1⟩) ∧
    (Serde.HashMap.has
        ((Serde.HashMap.empty id id).set "k" (0 : Int)) "k" = true ∧
      Serde.HashMap.get intFalsy
        ((Serde.HashMap.empty id id).set "k" (0 : Int)) "k"
        = .error ⟨(Serde.HashMap.empty id id).set "k" (0 : Int), "k"⟩) ∧
    (DefaultMap.has
        ((DefaultMap.empty (fun _ => (1 : Int)) id id).set "k" 0) "k" = true ∧
      (DefaultMap.get intFalsy
        ((DefaultMap.empty (fun _ => (1 : Int)) id id).set "k" 0) "k").1
        = .error
            ⟨((DefaultMap.empty (fun _ => (1 : Int)) id id).set "k" 0).internalMap,
              "k"⟩) := by
  refine ⟨⟨rfl, rfl⟩, ⟨rfl, rfl⟩, rfl, rfl⟩

/-- C2: in every flavour, a key whose stored value is falsy is reported
absent by the strict `get` (which throws `MissingKeyError`) and by
`getOr` (which returns the fallback), because both test the looked-up
value's truthiness rather than key presence — even though `has`, which
does test presence, returns true. -/
theorem C2_falsy_stored_value_reported_absent
    {K V H D : Type} [DecidableEq H] (falsy : V → Bool)
    (m : Hashed.HashMap K V H) (k : K) (v : V) (d : D)
    (hv : jsGet m.internalMap (m.hashKey k) = some v) (hf : falsy v = true)
    {K2 V2 D2 : Type} (falsy2 : V2 → Bool)
    (m2 : Serde.HashMap K2 V2) (k2 : K2) (v2 : V2) (d2 : D2)
    (hv2 : jsGet m2.internalMap (m2.serializeKey k2) = some v2)
    (hf2 : falsy2 v2 = true)
    {K3 V3 D3 : Type} (falsy3 : V3 → Bool)
    (m3 : DefaultMap K3 V3) (k3 : K3) (v3 : V3) (d3 : D3)
    (hv3 : jsGet m3.internalMap.internalMap (m3.internalMap.serializeKey k3)
      = some v3)
    (hf3 : falsy3 v3 = true) :
    (Hashed.HashMap.get falsy m k = .error ⟨m, k⟩ ∧
      Hashed.HashMap.getOr falsy m k d = .inr d ∧
      Hashed.HashMap.has m k = true) ∧
    (Serde.HashMap.get falsy2 m2 k2 = .error ⟨m2, k2⟩ ∧
      Serde.HashMap.getOr falsy2 m2 k2 d2 = .inr d2 ∧
      Serde.HashMap.has m2 k2 = true) ∧
    ((DefaultMap.get falsy3 m3 k3).1 = .error ⟨m3.internalMap, k3⟩ ∧
      (DefaultMap.getOr falsy3 m3 k3 d3).1 = .inr d3 ∧
      DefaultMap.has m3 k3 = true) := by
  have h1 : Hashed.HashMap.has m k = true := by
    rw [Hashed.HashMap.has, jsHas_eq_isSome, hv]; rfl
  have h2 : Serde.HashMap.has m2 k2 = true := by
    rw [Serde.HashMap.has, jsHas_eq_isSome, hv2]; rfl
  have h3 : DefaultMap.has m3 k3 = true := by
    rw [DefaultMap.has, Serde.HashMap.has, jsHas_eq_isSome, hv3]; rfl
  refine ⟨⟨?_, ?_, h1⟩, ⟨?_, ?_, h2⟩, ⟨?_, ?_, h3⟩⟩
  · rw [Hashed.HashMap.get, hv]; simp [hf]
  · rw [Hashed.HashMap.getOr, hv]; simp [hf]
  · rw [Serde.HashMap.get, hv2]; simp [hf2]
  · rw [Serde.HashMap.getOr, hv2]; simp [hf2]
  · rw [DefaultMap.get, h3]; simp only [if_true]
    rw [Serde.HashMap.get, hv3]; simp [hf3]
  · rw [DefaultMap.getOr, Serde.HashMap.getOr, hv3]; simp [hf3]

/-- Witness for C2 at concrete inputs: an entry `1 ↦ 0` in the hash
flavour, `"k" ↦ 0` in the serialize flavour and in a `DefaultMap`, with
fallback `7`. -/
theorem C2_falsy_stored_value_reported_absent_witness :
    (jsGet ((Hashed.HashMap.empty Int Int).set 1 0).internalMap
        (((Hashed.HashMap.empty Int Int).set 1 0).hashKey 1) = some 0 ∧
      intFalsy 0 = true) ∧
    (Hashed.HashMap.get intFalsy ((Hashed.HashMap.empty Int Int).set 1 0) 1
        = .error ⟨(Hashed.HashMap.empty Int Int).set 1 0, 1⟩ ∧
      Hashed.HashMap.getOr intFalsy
        ((Hashed.HashMap.empty Int Int).set 1 0) 1 (7 : Int) = .inr 7 ∧
      Hashed.HashMap.has ((Hashed.HashMap.empty Int Int).set 1 0) 1 = true) ∧
    ((Serde.HashMap.get intFalsy ((Serde.HashMap.empty id id).set "k" (0 : Int)) "k"
        = .error ⟨(Serde.HashMap.empty id id).set "k" (0 : Int), "k"⟩) ∧
      Serde.HashMap.getOr intFalsy
        ((Serde.HashMap.empty id id).set "k" (0 : Int)) "k" (7 : Int) = .inr 7) ∧
    ((DefaultMap.get intFalsy
        ((DefaultMap.empty (fun _ => (1 : Int)) id id).set "k" 0) "k").1
        = .error
            ⟨((DefaultMap.empty (fun _ => (1 : Int)) id id).set "k" 0).internalMap,
              "k"⟩ ∧
      (DefaultMap.getOr intFalsy
        ((DefaultMap.empty (fun _ => (1 : Int)) id id).set "k" 0) "k" (7 : Int)).1
        = .inr 7) := by
  have h := C2_falsy_stored_value_reported_absent intFalsy
    ((Hashed.HashMap.empty Int Int).set 1 0) 1 0 (7 : Int) rfl rfl intFalsy
    ((Serde.HashMap.empty id id).set "k" (0 : Int)) "k" 0 (7 : Int) rfl rfl
    intFalsy
    ((DefaultMap.empty (fun _ => (1 : Int)) id id).set "k" 0) "k" 0 (7 : Int)
    rfl rfl
  exact ⟨⟨rfl, rfl⟩, ⟨h.1.1, h.1.2.1, h.1.2.2⟩,
    ⟨h.2.1.1, h.2.1.2.1⟩, ⟨h.2.2.1, h.2.2.2.1⟩⟩

/-- C3: the claim says `DefaultMap.get(k)` never fails: the first `get` on
an absent key computes, stores and returns the default, and a second
`get` returns the same stored value. The code contradicts the claim when
the computed default is falsy: the first `get` on key `"x"` of a map with
constant default `0` returns `0`, stores it (so `has("x")` becomes true)
and invokes the callback once — but the second `get` reaches the owned
map's strict `get`, whose `if (!value)` test throws `MissingKeyError` on
the stored `0`. This theorem evaluates the code at that failing input. -/
theorem C3_code_bug_falsy_default_second_get_fails :
    ((DefaultMap.get intFalsy (DefaultMap.empty (fun _ => (0 : Int)) id id) "x").1
        = .ok 0 ∧
      (DefaultMap.get intFalsy (DefaultMap.empty (fun _ => (0 : Int)) id id) "x").2.2
        = 1) ∧
    DefaultMap.has
      (DefaultMap.get intFalsy (DefaultMap.empty (fun _ => (0 : Int)) id id) "x").2.1
      "x" = true ∧
    (DefaultMap.get intFalsy
      (DefaultMap.get intFalsy (DefaultMap.empty (fun _ => (0 : Int)) id id) "x").2.1
      "x").1
      = .error
          ⟨(DefaultMap.get intFalsy
              (DefaultMap.empty (fun _ => (0 : Int)) id id) "x").2.1.internalMap,
            "x"⟩ := by
  refine ⟨⟨rfl, rfl⟩, rfl, rfl⟩

/-- C4: in both strict-map flavours, a key with no entry under its
transformed (hashed / serialized) form makes `get` fail with a
`MissingKeyError` whose `key` field is the offending domain key and whose
`map` field is the map itself, makes `getOr` return the fallback
unchanged, and makes `has` return false. (`DefaultMap` is out of scope
here: its `get` materializes a default instead of failing, see C3.) -/
theorem C4_absent_key_strict_accessors
    {K V H D : Type} [DecidableEq H] (falsy : V → Bool)
    (m : Hashed.HashMap K V H) (k : K) (d : D)
    (h : jsGet m.internalMap (m.hashKey k) = none)
    {K2 V2 D2 : Type} (falsy2 : V2 → Bool)
    (m2 : Serde.HashMap K2 V2) (k2 : K2) (d2 : D2)
    (h2 : jsGet m2.internalMap (m2.serializeKey k2) = none) :
    (Hashed.HashMap.get falsy m k = .error ⟨m, k⟩ ∧
      Hashed.HashMap.getOr falsy m k d = .inr d ∧
      Hashed.HashMap.has m k = false) ∧
    (Serde.HashMap.get falsy2 m2 k2 = .error ⟨m2, k2⟩ ∧
      Serde.HashMap.getOr falsy2 m2 k2 d2 = .inr d2 ∧
      Serde.HashMap.has m2 k2 = false) := by
  refine ⟨⟨?_, ?_, ?_⟩, ?_, ?_, ?_⟩
  · rw [Hashed.HashMap.get, h]
  · rw [Hashed.HashMap.getOr, h]
  · rw [Hashed.HashMap.has, jsHas_eq_isSome, h]; rfl
  · rw [Serde.HashMap.get, h2]
  · rw [Serde.HashMap.getOr, h2]
  · rw [Serde.HashMap.has, jsHas_eq_isSome, h2]; rfl

/-- Witness for C4: key `5` on a hash-flavour map holding only `1 ↦ 10`,
and key `"z"` on an empty serialize-flavour map, with fallback `7`. -/
theorem C4_absent_key_strict_accessors_witness :
    (jsGet ((Hashed.HashMap.empty Int Int).set 1 10).internalMap
        (((Hashed.HashMap.empty Int Int).set 1 10).hashKey 5) = none ∧
      jsGet (Serde.HashMap.empty id id : Serde.HashMap String Int).internalMap
        ((Serde.HashMap.empty id id : Serde.HashMap String Int).serializeKey "z")
        = none) ∧
    (Hashed.HashMap.get intFalsy ((Hashed.HashMap.empty Int Int).set 1 10) 5
        = .error ⟨(Hashed.HashMap.empty Int Int).set 1 10, 5⟩ ∧
      Hashed.HashMap.getOr intFalsy ((Hashed.HashMap.empty Int Int).set 1 10) 5
        (7 : Int) = .inr 7 ∧
      Hashed.HashMap.has ((Hashed.HashMap.empty Int Int).set 1 10) 5 = false) ∧
    (Serde.HashMap.get intFalsy
        (Serde.HashMap.empty id id : Serde.HashMap String Int) "z"
        = .error ⟨(Serde.HashMap.empty id id : Serde.HashMap String Int), "z"⟩ ∧
      Serde.HashMap.getOr intFalsy
        (Serde.HashMap.empty id id : Serde.HashMap String Int) "z" (7 : Int)
        = .inr 7 ∧
      Serde.HashMap.has
        (Serde.HashMap.empty id id : Serde.HashMap String Int) "z" = false) := by
  have h := C4_absent_key_strict_accessors intFalsy
    ((Hashed.HashMap.empty Int Int).set 1 10) 5 (7 : Int) rfl intFalsy
    (Serde.HashMap.empty id id : Serde.HashMap String Int) "z" (7 : Int) rfl
  exact ⟨⟨rfl, rfl⟩, h.1, h.2⟩

/-- C5: in both strict-map flavours, `delete` on an absent key fails with
a `MissingKeyError` carrying the key and the map, and on a present key
removes exactly that entry (afterwards `has` is false); `deleteIfExists`
never fails, returns `false` and leaves the map unchanged on an absent
key, and returns `true` with the entry removed on a present key. Presence
is decided by `has` (a real key-presence check, not truthiness). -/
theorem C5_delete_and_deleteIfExists
    {K V H : Type} [DecidableEq H]
    (m : Hashed.HashMap K V H) (k : K)
    {K2 V2 : Type} (m2 : Serde.HashMap K2 V2) (k2 : K2) :
    ((Hashed.HashMap.has m k = false →
        Hashed.HashMap.delete m k = .error ⟨m, k⟩ ∧
        Hashed.HashMap.deleteIfExists m k = (false, m)) ∧
      (Hashed.HashMap.has m k = true →
        Hashed.HashMap.delete m k
          = .ok { m with internalMap := jsDelete m.internalMap (m.hashKey k) } ∧
        Hashed.HashMap.deleteIfExists m k
          = (true, { m with internalMap := jsDelete m.internalMap (m.hashKey k) }) ∧
        Hashed.HashMap.has
          { m with internalMap := jsDelete m.internalMap (m.hashKey k) } k
          = false)) ∧
    ((Serde.HashMap.has m2 k2 = false →
        Serde.HashMap.delete m2 k2 = .error ⟨m2, k2⟩ ∧
        Serde.HashMap.deleteIfExists m2 k2 = (false, m2)) ∧
      (Serde.HashMap.has m2 k2 = true →
        Serde.HashMap.delete m2 k2
          = .ok { m2 with
              internalMap := jsDelete m2.internalMap (m2.serializeKey k2) } ∧
        Serde.HashMap.deleteIfExists m2 k2
          = (true, { m2 with
              internalMap := jsDelete m2.internalMap (m2.serializeKey k2) }) ∧
        Serde.HashMap.has
          { m2 with internalMap := jsDelete m2.internalMap (m2.serializeKey k2) }
          k2 = false)) := by
  refine ⟨⟨fun habs => ?_, fun hpres => ?_⟩, fun habs => ?_, fun hpres => ?_⟩
  · constructor
    · rw [Hashed.HashMap.delete, habs]; rfl
    · rw [Hashed.HashMap.deleteIfExists, habs]; rfl
  · refine ⟨?_, ?_, ?_⟩
    · rw [Hashed.HashMap.delete, hpres]; rfl
    · rw [Hashed.HashMap.deleteIfExists, hpres]
      simp only [if_true]
      rw [Hashed.HashMap.delete, hpres]
      rfl
    · exact jsHas_jsDelete_self m.internalMap (m.hashKey k)
  · constructor
    · rw [Serde.HashMap.delete, habs]; rfl
    · rw [Serde.HashMap.deleteIfExists, habs]; rfl
  · refine ⟨?_, ?_, ?_⟩
    · rw [Serde.HashMap.delete, hpres]; rfl
    · rw [Serde.HashMap.deleteIfExists, hpres]
      simp only [if_true]
      rw [Serde.HashMap.delete, hpres]
      rfl
    · exact jsHas_jsDelete_self m2.internalMap (m2.serializeKey k2)

/-- Witness for C5, covering both cases of both flavours: deleting key `5`
from an empty hash-flavour map yields an error whose `key` field is `5`
(the spec's concrete scenario 3); deleting key `1` from `1 ↦ 10, 2 ↦ 20`
removes exactly that entry; analogues on the serialize flavour. -/
theorem C5_delete_and_deleteIfExists_witness :
    (Hashed.HashMap.has (Hashed.HashMap.empty Int Int) 5 = false ∧
      Hashed.HashMap.delete (Hashed.HashMap.empty Int Int) 5
        = .error ⟨Hashed.HashMap.empty Int Int, 5⟩ ∧
      Hashed.HashMap.deleteIfExists (Hashed.HashMap.empty Int Int) 5
        = (false, Hashed.HashMap.empty Int Int)) ∧
    (Hashed.HashMap.has (((Hashed.HashMap.empty Int Int).set 1 10).set 2 20) 1
        = true ∧
      Hashed.HashMap.delete (((Hashed.HashMap.empty Int Int).set 1 10).set 2 20) 1
        = .ok { ((Hashed.HashMap.empty Int Int).set 1 10).set 2 20 with
            internalMap :=
              jsDelete
                ((((Hashed.HashMap.empty Int Int).set 1 10).set 2 20).internalMap)
                ((((Hashed.HashMap.empty Int Int).set 1 10).set 2 20).hashKey 1) } ∧
      Hashed.HashMap.has
        { ((Hashed.HashMap.empty Int Int).set 1 10).set 2 20 with
            internalMap :=
              jsDelete
                ((((Hashed.HashMap.empty Int Int).set 1 10).set 2 20).internalMap)
                ((((Hashed.HashMap.empty Int Int).set 1 10).set 2 20).hashKey 1) }
        1 = false) ∧
    (Serde.HashMap.has (Serde.HashMap.empty id id : Serde.HashMap String Int) "z"
        = false ∧
      Serde.HashMap.delete
        (Serde.HashMap.empty id id : Serde.HashMap String Int) "z"
        = .error ⟨(Serde.HashMap.empty id id : Serde.HashMap String Int), "z"⟩ ∧
      Serde.HashMap.deleteIfExists
        (Serde.HashMap.empty id id : Serde.HashMap String Int) "z"
        = (false, (Serde.HashMap.empty id id : Serde.HashMap String Int))) ∧
    (Serde.HashMap.has ((Serde.HashMap.empty id id).set "k" (9 : Int)) "k"
        = true ∧
      Serde.HashMap.deleteIfExists
        ((Serde.HashMap.empty id id).set "k" (9 : Int)) "k"
        = (true, { (Serde.HashMap.empty id id).set "k" (9 : Int) with
            internalMap :=
              jsDelete
                (((Serde.HashMap.empty id id).set "k" (9 : Int)).internalMap)
                ((((Serde.HashMap.empty id id).set "k" (9 : Int))).serializeKey
                  "k") })) := by
  have ha := C5_delete_and_deleteIfExists (Hashed.HashMap.empty Int Int) 5
    (Serde.HashMap.empty id id : Serde.HashMap String Int) "z"
  have hp := C5_delete_and_deleteIfExists
    (((Hashed.HashMap.empty Int Int).set 1 10).set 2 20) 1
    ((Serde.HashMap.empty id id).set "k" (9 : Int)) "k"
  refine ⟨⟨rfl, (ha.1.1 rfl).1, (ha.1.1 rfl).2⟩,
    ⟨rfl, (hp.1.2 rfl).1, (hp.1.2 rfl).2.2⟩,
    ⟨rfl, (ha.2.1 rfl).1, (ha.2.1 rfl).2⟩,
    ⟨rfl, (hp.2.2 rfl).2.1⟩⟩

/-- C6 counterexample: the claim, as stated, promises that after
`set(k1, v)` the call `get(k2)` returns `v` for any `k2` with the same
transformed key — for every value `v`. With the hash `k % 2` on integer
keys, `transform(0) = transform(2)`, yet after `set(0, 0)` the call
`get(2)` does not return the stored `0`: the truthiness test in `get`
throws on the falsy value. -/
theorem C6_counterexample :
    ((Hashed.HashMap.emptyWithCustomHash (fun k => k % 2)
        : Hashed.HashMap Int Int Int).hash 0
      = (Hashed.HashMap.emptyWithCustomHash (fun k => k % 2)
        : Hashed.HashMap Int Int Int).hash 2) ∧
    Hashed.HashMap.get intFalsy
      ((Hashed.HashMap.emptyWithCustomHash (fun k => k % 2)
          : Hashed.HashMap Int Int Int).set 0 0) 2
      ≠ .ok 0 := by
  refine ⟨rfl, fun h => ?_⟩
  rw [show Hashed.HashMap.get intFalsy
      ((Hashed.HashMap.emptyWithCustomHash (fun k => k % 2)
          : Hashed.HashMap Int Int Int).set 0 0) 2
      = .error ⟨(Hashed.HashMap.emptyWithCustomHash (fun k => k % 2)
          : Hashed.HashMap Int Int Int).set 0 0, 2⟩ from rfl] at h
  exact Except.noConfusion h

/-- C6 amended: two domain keys with the same transformed (hashed /
serialized) key address the same stored entry: `has`, `getOr` and `set`
behave identically through either key, after `set(k1, v)` the key `k2` is
present, and `get(k2)` returns `v` provided `v` is truthy (a falsy `v` is
misreported by `get`, see C1/C2). Stated for both strict flavours. -/
theorem C6_aliased_keys_same_entry
    {K V H D : Type} [DecidableEq H] (falsy : V → Bool)
    (m : Hashed.HashMap K V H) (k1 k2 : K) (v : V) (d : D)
    (h : m.hash k1 = m.hash k2)
    {K2 V2 D2 : Type} (falsy2 : V2 → Bool)
    (m2 : Serde.HashMap K2 V2) (j1 j2 : K2) (w : V2) (e : D2)
    (h2 : m2.serializeKey j1 = m2.serializeKey j2) :
    (Hashed.HashMap.has (m.set k1 v) k2 = true ∧
      (falsy v = false →
        Hashed.HashMap.get falsy (m.set k1 v) k2 = .ok v) ∧
      m.set k1 v = m.set k2 v ∧
      m.has k1 = m.has k2 ∧
      Hashed.HashMap.getOr falsy m k1 d = Hashed.HashMap.getOr falsy m k2 d) ∧
    (Serde.HashMap.has (m2.set j1 w) j2 = true ∧
      (falsy2 w = false →
        Serde.HashMap.get falsy2 (m2.set j1 w) j2 = .ok w) ∧
      m2.set j1 w = m2.set j2 w ∧
      m2.has j1 = m2.has j2 ∧
      Serde.HashMap.getOr falsy2 m2 j1 e = Serde.HashMap.getOr falsy2 m2 j2 e) := by
  have hk : (m.set k1 v).hashKey k2 = m.hashKey k1 := h.symm
  have hj : (m2.set j1 w).serializeKey j2 = m2.serializeKey j1 := h2.symm
  refine ⟨⟨?_, fun hv => ?_, ?_, ?_, ?_⟩, ?_, fun hw => ?_, ?_, ?_, ?_⟩
  · rw [Hashed.HashMap.has, hk]
    exact jsHas_jsSet_self m.internalMap (m.hashKey k1) v
  · rw [Hashed.HashMap.get]
    have : jsGet (m.set k1 v).internalMap ((m.set k1 v).hashKey k2) = some v := by
      rw [hk]
      exact jsGet_jsSet_self m.internalMap (m.hashKey k1) v
    rw [this]
    simp [hv]
  · rw [Hashed.HashMap.set, Hashed.HashMap.set, Hashed.HashMap.hashKey,
      Hashed.HashMap.hashKey, h]
  · rw [Hashed.HashMap.has, Hashed.HashMap.has, Hashed.HashMap.hashKey,
      Hashed.HashMap.hashKey, h]
  · rw [Hashed.HashMap.getOr, Hashed.HashMap.getOr, Hashed.HashMap.hashKey,
      Hashed.HashMap.hashKey, h]
  · rw [Serde.HashMap.has, Serde.HashMap.set]
    simp only
    rw [show (m2.set j1 w).serializeKey = m2.serializeKey from rfl] at hj
    rw [hj]
    exact jsHas_jsSet_self m2.internalMap (m2.serializeKey j1) w
  · rw [Serde.HashMap.get]
    have : jsGet (m2.set j1 w).internalMap ((m2.set j1 w).serializeKey j2)
        = some w := by
      rw [hj]
      exact jsGet_jsSet_self m2.internalMap (m2.serializeKey j1) w
    rw [this]
    simp [hw]
  · rw [Serde.HashMap.set, Serde.HashMap.set, h2]
  · rw [Serde.HashMap.has, Serde.HashMap.has, h2]
  · rw [Serde.HashMap.getOr, Serde.HashMap.getOr, h2]

/-- Witness for C6: hash `k % 2` identifies the distinct integer keys `0`
and `2` (the claim's two-distinct-dates scenario, on integers); with the
truthy value `1` stored through key `0`, key `2` retrieves it. On the
serialize flavour, keys `0` and `2` serialize alike under
even/odd serialization. -/
theorem C6_aliased_keys_same_entry_witness :
    ((Hashed.HashMap.emptyWithCustomHash (fun k => k % 2)
        : Hashed.HashMap Int Int Int).hash 0
      = (Hashed.HashMap.emptyWithCustomHash (fun k => k % 2)
        : Hashed.HashMap Int Int Int).hash 2) ∧
    intFalsy 1 = false ∧
    Hashed.HashMap.has
      ((Hashed.HashMap.emptyWithCustomHash (fun k => k % 2)
          : Hashed.HashMap Int Int Int).set 0 1) 2 = true ∧
    Hashed.HashMap.get intFalsy
      ((Hashed.HashMap.emptyWithCustomHash (fun k => k % 2)
          : Hashed.HashMap Int Int Int).set 0 1) 2 = .ok 1 ∧
    ((Serde.HashMap.empty (fun _ => (0 : Int))
        (fun k => if k % 2 = 0 then "even" else "odd")
        : Serde.HashMap Int Int).serializeKey 0
      = (Serde.HashMap.empty (fun _ => (0 : Int))
        (fun k => if k % 2 = 0 then "even" else "odd")
        : Serde.HashMap Int Int).serializeKey 2) ∧
    Serde.HashMap.has
      ((Serde.HashMap.empty (fun _ => (0 : Int))
          (fun k => if k % 2 = 0 then "even" else "odd")).set 0 (1 : Int)) 2
      = true ∧
    Serde.HashMap.get intFalsy
      ((Serde.HashMap.empty (fun _ => (0 : Int))
          (fun k => if k % 2 = 0 then "even" else "odd")).set 0 (1 : Int)) 2
      = .ok 1 := by
  have h := C6_aliased_keys_same_entry intFalsy
    (Hashed.HashMap.emptyWithCustomHash (fun k => k % 2)
      : Hashed.HashMap Int Int Int) 0 2 1 (7 : Int) (by decide) intFalsy
    (Serde.HashMap.empty (fun _ => (0 : Int))
      (fun k => if k % 2 = 0 then "even" else "odd")
      : Serde.HashMap Int Int) 0 2 (1 : Int) (7 : Int)
    (by decide)
  exact ⟨by decide, rfl, h.1.1, h.1.2.1 rfl, by decide, h.2.1, h.2.2.1 rfl⟩

/-- C7 counterexample: the claim says every derivation returns a new
instance sharing the source's label/name. `DefaultMap.filter` rebuilds
through `DefaultMap.fromEntries`, whose constructor call omits the `name`
argument — so a named `DefaultMap`'s filter result has no name. -/
theorem C7_counterexample :
    (DefaultMap.filter
        (⟨⟨[("a", 1)], id, id⟩, fun _ => (0 : Int), some "mymap"⟩
          : DefaultMap String Int)
        (fun _ _ _ _ => true)).name
      ≠ (⟨⟨[("a", 1)], id, id⟩, fun _ => (0 : Int), some "mymap"⟩
          : DefaultMap String Int).name := by
  intro h
  rw [show (DefaultMap.filter
        (⟨⟨[("a", 1)], id, id⟩, fun _ => (0 : Int), some "mymap"⟩
          : DefaultMap String Int)
        (fun _ _ _ _ => true)).name = none from rfl] at h
  exact Option.noConfusion h

/-- C7 amended: `filter`, `map`, `mapKeys` and `mapValues` are pure
derivations — in this embedding they only read the source and build a new
map, so the source is untouched by construction — and every derivation
shares the source's transform configuration: the hash flavour keeps
`hash` and also the `name`, the serialize flavour keeps `serializeKey`
and `deserializeKey` (it has no name field), and `DefaultMap` keeps the
default-value policy and both serializers but drops the `name` (its
`fromEntries` does not pass one). -/
theorem C7_derivations_share_config
    {K V H : Type} [DecidableEq H] (m : Hashed.HashMap K V H)
    (fn : V → H → Nat → Hashed.HashMap K V H → Bool)
    (fm : V → H → Nat → Hashed.HashMap K V H → H × V)
    (fk : H → V → Nat → Hashed.HashMap K V H → H)
    (fv : V → H → Nat → Hashed.HashMap K V H → V)
    {K2 V2 : Type} (m2 : Serde.HashMap K2 V2)
    (gn : V2 → K2 → Nat → Serde.HashMap K2 V2 → Bool)
    (gm : V2 → K2 → Nat → Serde.HashMap K2 V2 → K2 × V2)
    (gk : K2 → V2 → Nat → Serde.HashMap K2 V2 → K2)
    (gv : V2 → K2 → Nat → Serde.HashMap K2 V2 → V2)
    {K3 V3 : Type} (m3 : DefaultMap K3 V3)
    (dn : V3 → K3 → Nat → DefaultMap K3 V3 → Bool)
    (dm : V3 → K3 → Nat → DefaultMap K3 V3 → K3 × V3)
    (dk : K3 → V3 → Nat → DefaultMap K3 V3 → K3)
    (dv : V3 → K3 → Nat → DefaultMap K3 V3 → V3) :
    ((m.filter fn).hash = m.hash ∧ (m.filter fn).name = m.name ∧
      (m.map fm).hash = m.hash ∧ (m.map fm).name = m.name ∧
      (m.mapKeys fk).hash = m.hash ∧ (m.mapKeys fk).name = m.name ∧
      (m.mapValues fv).hash = m.hash ∧ (m.mapValues fv).name = m.name) ∧
    ((m2.filter gn).serializeKey = m2.serializeKey ∧
      (m2.filter gn).deserializeKey = m2.deserializeKey ∧
      (m2.map gm).serializeKey = m2.serializeKey ∧
      (m2.map gm).deserializeKey = m2.deserializeKey ∧
      (m2.mapKeys gk).serializeKey = m2.serializeKey ∧
      (m2.mapKeys gk).deserializeKey = m2.deserializeKey ∧
      (m2.mapValues gv).serializeKey = m2.serializeKey ∧
      (m2.mapValues gv).deserializeKey = m2.deserializeKey) ∧
    ((m3.filter dn).defaultValue = m3.defaultValue ∧
      (m3.filter dn).internalMap.serializeKey = m3.internalMap.serializeKey ∧
      (m3.filter dn).internalMap.deserializeKey
        = m3.internalMap.deserializeKey ∧
      (m3.filter dn).name = none ∧
      (m3.map dm).defaultValue = m3.defaultValue ∧
      (m3.map dm).internalMap.serializeKey = m3.internalMap.serializeKey ∧
      (m3.map dm).internalMap.deserializeKey = m3.internalMap.deserializeKey ∧
      (m3.map dm).name = none ∧
      (m3.mapKeys dk).defaultValue = m3.defaultValue ∧
      (m3.mapKeys dk).internalMap.serializeKey = m3.internalMap.serializeKey ∧
      (m3.mapKeys dk).internalMap.deserializeKey
        = m3.internalMap.deserializeKey ∧
      (m3.mapKeys dk).name = none ∧
      (m3.mapValues dv).defaultValue = m3.defaultValue ∧
      (m3.mapValues dv).internalMap.serializeKey
        = m3.internalMap.serializeKey ∧
      (m3.mapValues dv).internalMap.deserializeKey
        = m3.internalMap.deserializeKey ∧
      (m3.mapValues dv).name = none) :=
  ⟨⟨rfl, rfl, rfl, rfl, rfl, rfl, rfl, rfl⟩,
    ⟨rfl, rfl, rfl, rfl, rfl, rfl, rfl, rfl⟩,
    ⟨rfl, rfl, rfl, rfl, rfl, rfl, rfl, rfl, rfl, rfl, rfl, rfl, rfl, rfl,
      rfl, rfl⟩⟩

/-- C8 counterexample: the claim says `entries()` yields keys in their
transformed (storage) form. On the serialize flavour with
`serializeKey s = s ++ "!"` and `deserializeKey s = s.dropRight 1`, the
map built from the single entry `("a", 1)` stores the key `"a!"`, but
`entries()` yields the deserialized key `"a"`, not the storage form
`"a!"` (the storage form is only yielded by `serializedKeys()`). -/
theorem C8_counterexample :
    Serde.HashMap.entries
        (Serde.HashMap.fromEntries [(("a" : String), (1 : Int))]
          (fun s => s.dropRight 1) (fun s => s ++ "!"))
      = [("a", 1)] ∧
    Serde.HashMap.serializedKeys
        (Serde.HashMap.fromEntries [(("a" : String), (1 : Int))]
          (fun s => s.dropRight 1) (fun s => s ++ "!"))
      = ["a!"] ∧
    Serde.HashMap.entries
        (Serde.HashMap.fromEntries [(("a" : String), (1 : Int))]
          (fun s => s.dropRight 1) (fun s => s ++ "!"))
      ≠ [("a!", 1)] := by
  refine ⟨by decide, by decide, by decide⟩

/-- C8 amended: `entries()`/`keys()` traverse the backing store in its
insertion order (`set` on an absent key appends); the hash flavour yields
keys in transformed (storage) form, while the serialize flavour — and
`DefaultMap`, which delegates to it — yields keys deserialized back to
domain form, the storage form being available through `serializedKeys()`;
in every flavour the iteration protocol yields the same sequence as
`entries()`. -/
theorem C8_iteration_order_and_key_form
    {K V H : Type} [DecidableEq H]
    (m : Hashed.HashMap K V H) (k : K) (v : V)
    (habs : m.has k = false)
    {K2 V2 : Type} (m2 : Serde.HashMap K2 V2) (k2 : K2) (v2 : V2)
    (habs2 : m2.has k2 = false)
    {K3 V3 : Type} (m3 : DefaultMap K3 V3) :
    (Hashed.HashMap.entries m = m.internalMap ∧
      Hashed.HashMap.keys m = (Hashed.HashMap.entries m).map Prod.fst ∧
      Hashed.HashMap.iter m = Hashed.HashMap.entries m ∧
      Hashed.HashMap.entries (m.set k v)
        = Hashed.HashMap.entries m ++ [(m.hashKey k, v)]) ∧
    (Serde.HashMap.entries m2
        = m2.internalMap.map (fun p => (m2.deserializeKey p.1, p.2)) ∧
      Serde.HashMap.serializedKeys m2 = m2.internalMap.map Prod.fst ∧
      Serde.HashMap.keys m2 = (Serde.HashMap.entries m2).map Prod.fst ∧
      Serde.HashMap.iter m2 = Serde.HashMap.entries m2 ∧
      Serde.HashMap.entries (m2.set k2 v2)
        = Serde.HashMap.entries m2
          ++ [(m2.deserializeKey (m2.serializeKey k2), v2)]) ∧
    (DefaultMap.entries m3 = Serde.HashMap.entries m3.internalMap ∧
      DefaultMap.iter m3 = DefaultMap.entries m3) := by
  refine ⟨⟨rfl, by simp [Hashed.HashMap.keys, Hashed.HashMap.entries], rfl, ?_⟩,
    ⟨rfl, rfl, by simp [Serde.HashMap.keys, Serde.HashMap.entries], rfl, ?_⟩,
    rfl, rfl⟩
  · rw [Hashed.HashMap.has] at habs
    rw [Hashed.HashMap.entries, Hashed.HashMap.set]
    simp only
    rw [jsSet_absent m.internalMap (m.hashKey k) v habs]
    rfl
  · rw [Serde.HashMap.has] at habs2
    rw [Serde.HashMap.entries, Serde.HashMap.set]
    simp only
    rw [jsSet_absent m2.internalMap (m2.serializeKey k2) v2 habs2]
    simp [Serde.HashMap.entries]

/-- Witness for C8: the spec's concrete scenario 1 — `set(1, "one")` then
`set(2, "two")` on an empty hash-flavour map traverses as
`[(1, "one"), (2, "two")]` — plus a serialize-flavour map and a
`DefaultMap` with one entry. -/
theorem C8_iteration_order_and_key_form_witness :
    (Hashed.HashMap.has ((Hashed.HashMap.empty Int String).set 1 "one") 2
        = false ∧
      Serde.HashMap.has
        ((Serde.HashMap.empty id id : Serde.HashMap String Int).set "a" 1) "b"
        = false) ∧
    Hashed.HashMap.entries
        (((Hashed.HashMap.empty Int String).set 1 "one").set 2 "two")
      = Hashed.HashMap.entries ((Hashed.HashMap.empty Int String).set 1 "one")
        ++ [(((Hashed.HashMap.empty Int String).set 1 "one").hashKey 2, "two")] ∧
    Hashed.HashMap.entries
        (((Hashed.HashMap.empty Int String).set 1 "one").set 2 "two")
      = [(1, "one"), (2, "two")] ∧
    Serde.HashMap.entries
        (((Serde.HashMap.empty id id : Serde.HashMap String Int).set "a" 1).set
          "b" 2)
      = [("a", 1), ("b", 2)] ∧
    DefaultMap.entries
        ((DefaultMap.empty (fun _ => (0 : Int)) id id).set "a" 1)
      = Serde.HashMap.entries
          ((DefaultMap.empty (fun _ => (0 : Int)) id id).set "a" 1).internalMap := by
  have h := C8_iteration_order_and_key_form
    ((Hashed.HashMap.empty Int String).set 1 "one") 2 "two" rfl
    ((Serde.HashMap.empty id id : Serde.HashMap String Int).set "a" 1) "b"
    (2 : Int) rfl
    ((DefaultMap.empty (fun _ => (0 : Int)) id id).set "a" 1)
  exact ⟨⟨rfl, rfl⟩, h.1.2.2.2, by decide, by decide, h.2.2.1⟩

/-- C9 counterexample: the claim says every flavour's `filter` passes an
index counting the entries accepted so far. `DefaultMap.filter` instead
increments its index on every iteration. Filtering the three-entry map
`a ↦ 1, b ↦ 2, c ↦ 3` with the predicate `index % 2 == 0` keeps `a` and
`c` (overall indices 0 and 2), while the accepted-so-far semantics the
claim describes would keep only `a`. -/
theorem C9_counterexample :
    DefaultMap.entries
        (DefaultMap.filter
          (DefaultMap.fromEntries
            [(("a" : String), (1 : Int)), ("b", 2), ("c", 3)]
            (fun _ => 0) id id)
          (fun _ _ i _ => i % 2 == 0))
      = [("a", 1), ("c", 3)] ∧
    filterAccepted (fun _ _ i => i % 2 == 0)
        (DefaultMap.entries
          (DefaultMap.fromEntries
            [(("a" : String), (1 : Int)), ("b", 2), ("c", 3)]
            (fun _ => 0) id id)) 0
      = [("a", 1)] ∧
    ([("a", 1), ("c", 3)] : List (String × Int)) ≠ [("a", 1)] := by
  refine ⟨by decide, by decide, by decide⟩

/-- C9 amended: both `HashMap` flavours' `filter` implement exactly the
accepted-so-far index semantics the spec describes (`filterAccepted`),
and the result holds exactly the accepted entries in iteration order (for
the hash flavour, whose storage keys are assumed well-formed, i.e.
duplicate-free, the resulting backing store is literally the accepted
list); `DefaultMap.filter`, however, passes the overall iteration index
(`filterEnumerated`), incremented on rejected entries too. -/
theorem C9_filter_index_semantics
    {K V H : Type} [DecidableEq H]
    (m : Hashed.HashMap K V H)
    (fn : V → H → Nat → Hashed.HashMap K V H → Bool)
    (hnd : (m.internalMap.map Prod.fst).Nodup)
    {K2 V2 : Type} (m2 : Serde.HashMap K2 V2)
    (gn : V2 → K2 → Nat → Serde.HashMap K2 V2 → Bool)
    {K3 V3 : Type} (m3 : DefaultMap K3 V3)
    (dn : V3 → K3 → Nat → DefaultMap K3 V3 → Bool) :
    (m.filter fn).internalMap
      = filterAccepted (fun v a i => fn v a i m) (Hashed.HashMap.entries m) 0 ∧
    (m2.filter gn).internalMap
      = jsFromList
          ((filterAccepted (fun v a i => gn v a i m2)
            (Serde.HashMap.entries m2) 0).map
            (fun p => (m2.serializeKey p.1, p.2))) ∧
    (m3.filter dn).internalMap.internalMap
      = jsFromList
          ((filterEnumerated (fun v a i => dn v a i m3)
            (DefaultMap.entries m3) 0).map
            (fun p => (m3.internalMap.serializeKey p.1, p.2))) := by
  have e1 : (Hashed.HashMap.entries m).foldl
      (fun acc p => if fn p.2 p.1 acc.length m then acc ++ [p] else acc) []
      = filterAccepted (fun v a i => fn v a i m) (Hashed.HashMap.entries m) 0 := by
    simpa using
      filter_foldl_eq (fun v a i => fn v a i m) (Hashed.HashMap.entries m) []
  have e2 : (Serde.HashMap.entries m2).foldl
      (fun acc p => if gn p.2 p.1 acc.length m2 then acc ++ [p] else acc) []
      = filterAccepted (fun v a i => gn v a i m2) (Serde.HashMap.entries m2) 0 := by
    simpa using
      filter_foldl_eq (fun v a i => gn v a i m2) (Serde.HashMap.entries m2) []
  have e3 : ((Serde.HashMap.entries m3.internalMap).foldl
      (fun (acc : List (K3 × V3) × Nat) p =>
        (if dn p.2 p.1 acc.2 m3 then acc.1 ++ [p] else acc.1, acc.2 + 1))
      ([], 0)).1
      = filterEnumerated (fun v a i => dn v a i m3)
          (DefaultMap.entries m3) 0 := by
    simpa using
      dfilter_foldl_eq (fun v a i => dn v a i m3)
        (Serde.HashMap.entries m3.internalMap) [] 0
  refine ⟨?_, ?_, ?_⟩
  · show jsFromList ((Hashed.HashMap.entries m).foldl
        (fun acc p => if fn p.2 p.1 acc.length m then acc ++ [p] else acc) [])
      = _
    rw [e1]
    apply jsFromList_eq_self
    have hsub := filterAccepted_sublist (fun v a i => fn v a i m)
      (Hashed.HashMap.entries m) 0
    exact List.Nodup.sublist (hsub.map Prod.fst) hnd
  · show jsFromList (((Serde.HashMap.entries m2).foldl
        (fun acc p => if gn p.2 p.1 acc.length m2 then acc ++ [p] else acc)
        []).map (fun p => (m2.serializeKey p.1, p.2)))
      = _
    rw [e2]
  · show jsFromList ((((Serde.HashMap.entries m3.internalMap).foldl
        (fun (acc : List (K3 × V3) × Nat) p =>
          (if dn p.2 p.1 acc.2 m3 then acc.1 ++ [p] else acc.1, acc.2 + 1))
        ([], 0)).1).map (fun p => (m3.internalMap.serializeKey p.1, p.2)))
      = _
    rw [e3]

/-- Witness for C9: the hash-flavour map `1 ↦ 10, 2 ↦ 20, 3 ↦ 30` with the
predicate `index == 0`, a one-entry serialize-flavour map, and the
three-entry `DefaultMap` of the counterexample. -/
theorem C9_filter_index_semantics_witness :
    ((Hashed.HashMap.fromCustomEntries
        [((1 : Int), (10 : Int)), (2, 20), (3, 30)] id).internalMap.map
        Prod.fst).Nodup ∧
    ((Hashed.HashMap.fromCustomEntries
        [((1 : Int), (10 : Int)), (2, 20), (3, 30)] id).filter
        (fun _ _ i _ => i == 0)).internalMap
      = filterAccepted (fun _ _ i => i == 0)
          (Hashed.HashMap.entries
            (Hashed.HashMap.fromCustomEntries
              [((1 : Int), (10 : Int)), (2, 20), (3, 30)] id)) 0 ∧
    ((Serde.HashMap.fromEntries [(("a" : String), (1 : Int))] id id).filter
        (fun _ _ i _ => i == 0)).internalMap
      = jsFromList
          ((filterAccepted (fun _ _ i => i == 0)
            (Serde.HashMap.entries
              (Serde.HashMap.fromEntries [(("a" : String), (1 : Int))] id id))
            0).map
            (fun p =>
              ((Serde.HashMap.fromEntries [(("a" : String), (1 : Int))] id
                id).serializeKey p.1, p.2))) ∧
    ((DefaultMap.fromEntries [(("a" : String), (1 : Int)), ("b", 2), ("c", 3)]
        (fun _ => 0) id id).filter
        (fun _ _ i _ => i % 2 == 0)).internalMap.internalMap
      = jsFromList
          ((filterEnumerated (fun _ _ i => i % 2 == 0)
            (DefaultMap.entries
              (DefaultMap.fromEntries
                [(("a" : String), (1 : Int)), ("b", 2), ("c", 3)]
                (fun _ => 0) id id)) 0).map
            (fun p =>
              ((DefaultMap.fromEntries
                [(("a" : String), (1 : Int)), ("b", 2), ("c", 3)]
                (fun _ => 0) id id).internalMap.serializeKey p.1, p.2))) := by
  have h := C9_filter_index_semantics
    (Hashed.HashMap.fromCustomEntries
      [((1 : Int), (10 : Int)), (2, 20), (3, 30)] id)
    (fun _ _ i _ => i == 0) (by decide)
    (Serde.HashMap.fromEntries [(("a" : String), (1 : Int))] id id)
    (fun _ _ i _ => i == 0)
    (DefaultMap.fromEntries [(("a" : String), (1 : Int)), ("b", 2), ("c", 3)]
      (fun _ => 0) id id)
    (fun _ _ i _ => i % 2 == 0)
  exact ⟨by decide, h.1, h.2.1, h.2.2⟩

/-- C10: `DefaultMap.getOr` delegates verbatim to the owned map and never
touches the default policy: on a key that is absent, it returns the given
fallback, leaves the map unchanged (`has` stays false), and invokes the
default-value callback zero times — whereas `get` on the same absent key
invokes the callback once and stores the result, making the key
present. -/
theorem C10_getOr_does_not_materialize
    {K V D : Type} (falsy : V → Bool) (m : DefaultMap K V) (k : K) (d : D)
    (habs : DefaultMap.has m k = false) :
    DefaultMap.getOr falsy m k d = (.inr d, m, 0) ∧
    DefaultMap.has m k = false ∧
    (DefaultMap.get falsy m k).2.2 = 1 ∧
    DefaultMap.has (DefaultMap.get falsy m k).2.1 k = true := by
  have hget : jsGet m.internalMap.internalMap (m.internalMap.serializeKey k)
      = none := by
    rw [DefaultMap.has, Serde.HashMap.has, jsHas_eq_isSome] at habs
    exact Option.not_isSome_iff_eq_none.mp (by simp [habs])
  refine ⟨?_, habs, ?_, ?_⟩
  · rw [DefaultMap.getOr, Serde.HashMap.getOr, hget]
  · rw [DefaultMap.get, habs]
    rfl
  · rw [DefaultMap.get, habs]
    simp only [Bool.false_eq_true, if_false]
    rw [DefaultMap.has, DefaultMap.set]
    simp only
    rw [Serde.HashMap.has, Serde.HashMap.set]
    simp only
    exact jsHas_jsSet_self m.internalMap.internalMap
      (m.internalMap.serializeKey k) (m.defaultValue k)

/-- Witness for C10: an empty `DefaultMap` with generator default `5`, key
`"x"`, fallback `9`: `getOr` returns `9`, stores nothing and never calls
the generator; `get` calls it once and stores the result. -/
theorem C10_getOr_does_not_materialize_witness :
    DefaultMap.has (DefaultMap.empty (fun _ => (5 : Int)) id id) "x" = false ∧
    (DefaultMap.getOr intFalsy (DefaultMap.empty (fun _ => (5 : Int)) id id)
        "x" (9 : Int)
      = (.inr 9, DefaultMap.empty (fun _ => (5 : Int)) id id, 0) ∧
      (DefaultMap.get intFalsy (DefaultMap.empty (fun _ => (5 : Int)) id id)
        "x").2.2 = 1 ∧
      DefaultMap.has
        (DefaultMap.get intFalsy (DefaultMap.empty (fun _ => (5 : Int)) id id)
          "x").2.1 "x" = true) := by
  have h := C10_getOr_does_not_materialize intFalsy
    (DefaultMap.empty (fun _ => (5 : Int)) id id) "x" (9 : Int) rfl
  exact ⟨rfl, h.1, h.2.2.1, h.2.2.2⟩
